import Mathlib

/-!
Formal model of the progressive-image benchmark core
(src/image/progressive-image-bench3.mjs): the paced content server's
request handling and trace recording, the pixel-similarity engine, the
visual-convergence analyzer, and the per-(engine, test) run aggregator.

Numbers are modelled over `ℚ` (JavaScript doubles are treated as exact
rationals; every concrete value appearing in the claims is exactly
representable).  JavaScript `null` / `NaN` / absent fields are modelled
explicitly where the code's behaviour depends on them.
-/

set_option maxHeartbeats 1000000
set_option maxRecDepth 4000

attribute [local semireducible] Rat.add Rat.mul Rat.sub Rat.inv

namespace Bench

/-! ## Strings used by the model (bound to names so they can be reused). -/

def emptyS : String := ""

def dimMismatchMsg : String := "Dimension mismatch"

/-! ## Node `path.posix` model.

The server computes `path.normalize(path.join(ASSET_ROOT, urlPath))` and
checks `filePath.startsWith(ASSET_ROOT)`.  We model the POSIX variants of
`join` / `normalize` over `List Char`: split on `'/'`, drop empty and `"."`
segments, resolve `".."` (dropping it at the root of an absolute path),
then reassemble, preserving a trailing separator as Node does.
-/

def dotSeg : List Char := ['.']

def dotdot : List Char := ['.', '.']

def splitSegAux : List Char → List Char → List (List Char)
  | cur, [] => [cur.reverse]
  | cur, c :: rest =>
    if c = '/' then cur.reverse :: splitSegAux [] rest
    else splitSegAux (c :: cur) rest

def splitSeg (l : List Char) : List (List Char) := splitSegAux [] l

/-- One step of Node's `normalizeString`: `acc` is the list of kept
segments in reverse order; `allowAbove` is true for relative paths
(where leading `".."` segments are kept) and false for absolute ones
(where `".."` at the root is dropped). -/
def normStep (allowAbove : Bool) (acc : List (List Char)) (seg : List Char) :
    List (List Char) :=
  if seg = [] ∨ seg = dotSeg then acc
  else if seg = dotdot then
    match acc with
    | a :: rest => if a = dotdot then (if allowAbove then seg :: acc else acc) else rest
    | [] => if allowAbove then [seg] else []
  else seg :: acc

def joinSegs : List (List Char) → List Char
  | [] => []
  | [s] => s
  | s :: t :: rest => s ++ '/' :: joinSegs (t :: rest)

def pnormalizeL (p : List Char) : List Char :=
  if p = [] then dotSeg
  else
    let isAbs := match p with | '/' :: _ => true | _ => false
    let hasTrail := match p.reverse with | '/' :: _ => true | _ => false
    let core := joinSegs (((splitSeg p).foldl (normStep (!isAbs)) []).reverse)
    if core = [] then
      (if isAbs then ['/'] else if hasTrail then ['.', '/'] else dotSeg)
    else
      let core2 := if hasTrail then core ++ ['/'] else core
      if isAbs then '/' :: core2 else core2

/-- Node `path.posix.join` for two arguments: empty arguments are skipped,
the rest are joined with `'/'` and the result normalized. -/
def pjoinL (a b : List Char) : List Char :=
  if a = [] ∧ b = [] then dotSeg
  else if a = [] then pnormalizeL b
  else if b = [] then pnormalizeL a
  else pnormalizeL (a ++ '/' :: b)

/-- Model of String.prototype.startsWith on character lists. -/
def listStarts : List Char → List Char → Bool
  | _, [] => true
  | [], _ :: _ => false
  | a :: as, b :: bs => a = b && listStarts as bs

/-! ## `decodeURIComponent` model.

Percent escapes are decoded byte-wise and assembled as UTF-8 sequences;
a lone or malformed escape, a bad continuation byte, or a surrogate /
out-of-range code point makes the whole decode fail (JavaScript throws
`URIError`, which the server's `catch` turns into a 500 response).
Unescaped characters pass through unchanged.  Recursion is fueled by the
input length; each step consumes at least one character, so the fuel
never runs out on real inputs. -/

def hexVal (c : Char) : Option Nat :=
  if '0' ≤ c ∧ c ≤ '9' then some (c.toNat - '0'.toNat)
  else if 'a' ≤ c ∧ c ≤ 'f' then some (c.toNat - 'a'.toNat + 10)
  else if 'A' ≤ c ∧ c ≤ 'F' then some (c.toNat - 'A'.toNat + 10)
  else none

/-- Number of UTF-8 continuation bytes demanded by a lead byte, or `none`
for an invalid lead byte. -/
def utf8Len (b : Nat) : Option Nat :=
  if b < 128 then some 0
  else if b < 192 then none
  else if b < 224 then some 1
  else if b < 240 then some 2
  else if b < 248 then some 3
  else none

def grabByte : List Char → Option (Nat × List Char)
  | a :: b :: rest => do
    let x ← hexVal a
    let y ← hexVal b
    pure (16 * x + y, rest)
  | _ => none

/-- Consume `n` percent-escaped UTF-8 continuation bytes, returning their
assembled payload value. -/
def grabConts : Nat → List Char → Option (Nat × List Char)
  | 0, l => some (0, l)
  | n + 1, '%' :: rest => do
    let (b, rest1) ← grabByte rest
    if 128 ≤ b ∧ b < 192 then do
      let (acc, rest2) ← grabConts n rest1
      pure (b % 64 * 64 ^ n + acc, rest2)
    else none
  | _ + 1, _ => none

def pdAux : Nat → List Char → Option (List Char)
  | _, [] => some []
  | 0, _ :: _ => none
  | fuel + 1, '%' :: rest => do
    let (b, rest1) ← grabByte rest
    match utf8Len b with
    | none => none
    | some 0 => do
      let tail ← pdAux fuel rest1
      pure (Char.ofNat b :: tail)
    | some (n + 1) => do
      let (cv, rest2) ← grabConts (n + 1) rest1
      let cp := b % 2 ^ (6 - (n + 1)) * 64 ^ (n + 1) + cv
      if 55296 ≤ cp ∧ cp < 57344 then none
      else if 1114111 < cp then none
      else do
        let tail ← pdAux fuel rest2
        pure (Char.ofNat cp :: tail)
  | fuel + 1, c :: rest => do
    let tail ← pdAux fuel rest
    pure (c :: tail)

def percentDecode (l : List Char) : Option (List Char) := pdAux l.length l

/-! ## Paced content server: request handling (startThrottledServer).

The handler is modelled as a pure decision function.  The file system is
a parameter (`fsys`); `FsNode.brokenFile` is a file whose `stat` succeeds
but whose read stream errors.  The returned `Bool` records whether this
request appends a `ServerTrace` record to the server's trace log (the
source pushes the record exactly once, on stream end, on stream error,
and in the `catch` block — and nowhere else). -/

inductive FsNode
  | missing
  | dir
  | file (bytes : List Nat)
  | brokenFile
deriving DecidableEq

inductive Outcome
  | noContent
  | forbidden
  | notFound
  | headOk
  | served (bytes : List Nat)
  | streamError
  | internalError
deriving DecidableEq, Repr

def rootSlash : List Char := ['/']

def favPath : List Char := "/favicon.ico".data

/-- Query-string stripping, `url.replace(/\?.*$/, "")`: everything from
the first `'?'` on is removed (request targets contain no newline, so the
regex always matches at the first `'?'`). -/
def stripQuery (l : List Char) : List Char := l.takeWhile (fun c => c != '?')

def handleRequest (root : String) (fsys : String → FsNode) (isHead : Bool)
    (url : String) : Outcome × Bool :=
  let u := if url.data = [] then rootSlash else url.data
  let clean := stripQuery u
  if clean = rootSlash ∨ clean = favPath then (Outcome.noContent, false)
  else
    match percentDecode clean with
    | none => (Outcome.internalError, true)
    | some urlPath =>
      let filePath := pjoinL root.data urlPath
      if listStarts filePath root.data = false then (Outcome.forbidden, false)
      else
        match fsys (String.mk filePath) with
        | FsNode.missing => (Outcome.notFound, false)
        | FsNode.dir => (Outcome.notFound, false)
        | FsNode.file bs =>
          if isHead then (Outcome.headOk, false) else (Outcome.served bs, true)
        | FsNode.brokenFile =>
          if isHead then (Outcome.headOk, false) else (Outcome.streamError, true)

/-- The resolved file path of a request: query-string stripping, percent
decoding, join with the root, normalization — exactly the pipeline the
handler applies before its prefix check. -/
def resolvedPathOf (root url : String) : Option (List Char) :=
  (percentDecode (stripQuery (if url.data = [] then rootSlash else url.data))).map
    (fun q => pjoinL root.data q)

/-- Modelled from the spec: a resolved path is outside the root unless it
is the root itself or lies strictly below it (root followed by a `'/'`).
This is the claim's notion of "escapes the root"; the code instead uses a
bare string-prefix check. -/
def escapesRoot (root resolved : List Char) : Bool :=
  !((resolved == root) || listStarts resolved (root ++ ['/']))

/-- Which outcomes append a trace record, per the amended claim: exactly
the requests that stream (to completion or stream error) or whose handler
throws. -/
def pushesTrace : Outcome → Bool
  | Outcome.served _ => true
  | Outcome.streamError => true
  | Outcome.internalError => true
  | _ => false

/-! Concrete server inputs used by the theorems below. -/

def c1root : String := "/a/b"

def c1secret : String := "/a/bc/secret.png"

def c1url : String := "/../bc/secret.png"

def c1fs : String → FsNode :=
  fun p => if p = c1secret then FsNode.file [9, 9, 9] else FsNode.missing

def c2url : String := "/../../etc/passwd"

def c2fs : String → FsNode := fun _ => FsNode.missing

/-! ## Similarity engine (pixelmatch + the similarity wrapper).

`similarity` decodes two PNG buffers and calls `pixelmatch` with
`threshold: 0.1, includeAA: true`.  We model images after decoding
(claims quantify over decodable raster images, whose dimensions are
positive), and pixelmatch's per-pixel YIQ colour metric exactly over
`ℚ`: with `includeAA: true` a pixel counts as mismatched precisely when
the absolute colour delta exceeds `35215 * 0.1 * 0.1`. -/

structure Pixel where
  r : Nat
  g : Nat
  b : Nat
  a : Nat
deriving DecidableEq

/-- pixelmatch blends semi-transparent pixels onto white. -/
def blendWhite (c w : ℚ) : ℚ := 255 + (c - 255) * w

def premult (p : Pixel) : ℚ × ℚ × ℚ :=
  if p.a < 255 then
    let w : ℚ := (p.a : ℚ) / 255
    (blendWhite (p.r : ℚ) w, blendWhite (p.g : ℚ) w, blendWhite (p.b : ℚ) w)
  else ((p.r : ℚ), (p.g : ℚ), (p.b : ℚ))

def rgb2y (r g b : ℚ) : ℚ :=
  r * (29889531 / 100000000) + g * (58662247 / 100000000) + b * (11448223 / 100000000)

def rgb2i (r g b : ℚ) : ℚ :=
  r * (59597799 / 100000000) - g * (27417610 / 100000000) - b * (32180189 / 100000000)

def rgb2q (r g b : ℚ) : ℚ :=
  r * (21147017 / 100000000) - g * (52261711 / 100000000) + b * (31114694 / 100000000)

/-- pixelmatch's `colorDelta`: 0 for componentwise-equal pixels, else a
weighted square distance in YIQ space, negated when the first pixel is
brighter. -/
def colorDelta (p q : Pixel) : ℚ :=
  if p = q then 0
  else
    let c1 := premult p
    let c2 := premult q
    let y1 := rgb2y c1.1 c1.2.1 c1.2.2
    let y2 := rgb2y c2.1 c2.2.1 c2.2.2
    let dy := y1 - y2
    let di := rgb2i c1.1 c1.2.1 c1.2.2 - rgb2i c2.1 c2.2.1 c2.2.2
    let dq := rgb2q c1.1 c1.2.1 c1.2.2 - rgb2q c2.1 c2.2.1 c2.2.2
    let delta := (5053 / 10000) * dy ^ 2 + (299 / 1000) * di ^ 2 + (1957 / 10000) * dq ^ 2
    if y2 < y1 then -delta else delta

/-- The mismatch threshold 35215 * threshold^2 with the call site threshold 0.1. -/
def maxDelta : ℚ := 35215 * (1 / 10) * (1 / 10)

def pixelDiffers (p q : Pixel) : Bool := decide (maxDelta < |colorDelta p q|)

/-- pixelmatch's return value with `includeAA: true`: the number of pixel
positions whose colour delta exceeds the threshold. -/
def pixelmatchCount (d1 d2 : List Pixel) : Nat :=
  (d1.zip d2).countP (fun pq => pixelDiffers pq.1 pq.2)

/-- A decoded raster image.  PNG forbids zero dimensions, so decodable
images carry positivity; `hdata` is the decoded RGBA buffer's size. -/
structure Image where
  width : Nat
  height : Nat
  data : List Pixel
  wpos : 0 < width
  hpos : 0 < height
  hdata : data.length = width * height

/-- The source's `similarity`: throws on a dimension mismatch, otherwise
returns `1 - mismatched / (width * height)`. -/
def similarity (A B : Image) : Except String ℚ :=
  if A.width ≠ B.width ∨ A.height ≠ B.height then Except.error dimMismatchMsg
  else
    Except.ok (1 - (pixelmatchCount A.data B.data : ℚ) / ((A.width : ℚ) * (A.height : ℚ)))

/-! ## Convergence analyzer (computeVisualProgress). -/

structure Frame where
  t : ℚ
  png : Image

structure Sample where
  t : ℚ
  completeness : ℚ
deriving DecidableEq

structure VisResult where
  samples : List Sample
  t85 : Option ℚ
  t95 : Option ℚ
  visIndex : ℚ
deriving DecidableEq

def clamp01 (x : ℚ) : ℚ := min 1 (max 0 x)

/-- JavaScript `+x.toFixed(4)` for the nonnegative values produced here:
round to the nearest multiple of `1/10000`, half away from zero. -/
def round4 (x : ℚ) : ℚ := ((Rat.floor (x * 10000 + 1 / 2) : ℤ) : ℚ) / 10000

def headTime (l : List Sample) : ℚ := (l.headD ⟨0, 0⟩).t

def lastTime (l : List Sample) : ℚ := (l.getLastD ⟨0, 0⟩).t

/-- The analyzer's area loop: sum of `(1 - completeness[i-1]) * dt` over
consecutive sample pairs. -/
def areaSum : List Sample → ℚ
  | a :: b :: rest => (1 - a.completeness) * (b.t - a.t) + areaSum (b :: rest)
  | _ => 0

def computeVisualProgress : List Frame → Except String VisResult
  | [] => Except.ok ⟨[], none, none, 0⟩
  | [_] => Except.ok ⟨[⟨0, 1⟩], some 0, some 0, 0⟩
  | f0 :: f1 :: rest => do
    let tl := f0 :: f1 :: rest
    let finalPng := (tl.getLastD f0).png
    let samples ← tl.mapM (fun f => do
      let sim ← similarity f.png finalPng
      pure (⟨f.t, round4 (clamp01 sim)⟩ : Sample))
    let t0 := headTime samples
    let tEnd := lastTime samples
    if tEnd ≤ t0 then pure ⟨samples, some 0, some 0, 0⟩
    else
      let t85 := (samples.find? (fun s => decide ((85 : ℚ) / 100 ≤ s.completeness))).map Sample.t
      let t95 := (samples.find? (fun s => decide ((95 : ℚ) / 100 ≤ s.completeness))).map Sample.t
      pure ⟨samples, t85, t95, round4 (areaSum samples / (tEnd - t0))⟩

/-! Concrete images and timelines used by the theorems below. -/

def pxBlack : Pixel := ⟨0, 0, 0, 255⟩

def pxWhite : Pixel := ⟨255, 255, 255, 255⟩

def img1B : Image := ⟨1, 1, [pxBlack], Nat.one_pos, Nat.one_pos, rfl⟩

def img1W : Image := ⟨1, 1, [pxWhite], Nat.one_pos, Nat.one_pos, rfl⟩

def img2HW : Image := ⟨2, 1, [pxWhite, pxBlack], Nat.zero_lt_two, Nat.one_pos, rfl⟩

def img2WW : Image := ⟨2, 1, [pxWhite, pxWhite], Nat.zero_lt_two, Nat.one_pos, rfl⟩

/-- Three frames at t = 0, 1, 3: fully different, then converged. -/
def tlC5 : List Frame := [⟨0, img1B⟩, ⟨1, img1W⟩, ⟨3, img1W⟩]

/-- Two frames at t = 0 and t = 100 whose first frame has similarity
exactly 1/2 to the final frame (one of two pixels identical). -/
def tl05 : List Frame := [⟨0, img2HW⟩, ⟨100, img2WW⟩]

/-- The analyzer's output on `tlC5` (checked below): completeness 0, 1, 1
and `visIndex = round4(1/3) = 0.3333`. -/
def rC5 : VisResult := ⟨[⟨0, 0⟩, ⟨1, 1⟩, ⟨3, 1⟩], some 1, some 1, 3333 / 10000⟩

/-! ## Statistics (median, percentile) and the run aggregator.

`median` and `percentile` sort a copy ascending (`(x,y) => x - y`) and
never mutate the input.  The aggregation loop coerces each successful
trial's metric with JavaScript `Number(...)`: `null` becomes `0`, an
absent field (`undefined`) and `NaN` become `NaN`.  `t85`/`t95` keep the
values passing `Number.isFinite`; `visIndex` keeps those passing
`typeof v === 'number' && !Number.isNaN(v)`.  The analyzer only ever
produces `null`, finite numbers, or `NaN` (never ±Infinity), so metric
values are modelled as `MVal` and coercion results as `NumV`; on that
domain the two filters coincide. -/

def insertQ (x : ℚ) : List ℚ → List ℚ
  | [] => [x]
  | y :: t => if x ≤ y then x :: y :: t else y :: insertQ x t

/-- Ascending numeric sort of a copy (the JS `slice().sort((x,y) => x-y)`),
as a plain insertion sort. -/
def sortQ : List ℚ → List ℚ
  | [] => []
  | x :: t => insertQ x (sortQ t)

def medianQ (arr : List ℚ) : Option ℚ :=
  let a := sortQ arr
  let m := a.length
  if m = 0 then none
  else if m % 2 = 1 then some (a.getD ((m - 1) / 2) 0)
  else some ((a.getD (m / 2 - 1) 0 + a.getD (m / 2) 0) / 2)

def percentileQ (arr : List ℚ) (p : ℚ) : Option ℚ :=
  if arr.length = 0 then none
  else
    let a := sortQ arr
    let idx : ℚ := p / 100 * ((a.length : ℚ) - 1)
    let lo : ℤ := ⌊idx⌋
    let hi : ℤ := ⌈idx⌉
    if lo = hi then some (a.getD lo.toNat 0)
    else
      let w : ℚ := idx - (lo : ℚ)
      some (a.getD lo.toNat 0 * (1 - w) + a.getD hi.toNat 0 * w)

/-- A metric value as stored on a RunResult: JavaScript null, a finite
number, or NaN. -/
inductive MVal
  | vnull
  | vnum (q : ℚ)
  | vnan
deriving DecidableEq

/-- Result of the `Number(...)` coercion. -/
inductive NumV
  | fin (q : ℚ)
  | nan
deriving DecidableEq

/-- JavaScript `Number(x)` on a possibly absent metric field:
`Number(undefined) = NaN`, `Number(null) = 0`. -/
def toNumber : Option MVal → NumV
  | none => NumV.nan
  | some MVal.vnull => NumV.fin 0
  | some (MVal.vnum q) => NumV.fin q
  | some MVal.vnan => NumV.nan

/-- JavaScript Number.isFinite on the coercion result. -/
def isFinV : NumV → Bool
  | NumV.fin _ => true
  | NumV.nan => false

/-- The visIndex filter, typeof-number and not-NaN, on the coercion
result: after the coercion the value is always a number, and without
±Infinity in the domain this agrees with `isFinV`. -/
def notNaNV : NumV → Bool
  | NumV.fin _ => true
  | NumV.nan => false

def finPart : NumV → Option ℚ
  | NumV.fin q => some q
  | NumV.nan => none

/-- Read a list of coerced values, all finite by construction, back as
rationals (the JavaScript arrays simply hold these numbers). -/
def qList (l : List NumV) : List ℚ := l.filterMap finPart

/-- One trial's record as fed to the aggregation loop: an `error` string
when the run threw (in which case no metric fields were assigned), and
the three metric fields otherwise. -/
structure RunResult where
  error : Option String
  t85 : Option MVal
  t95 : Option MVal
  visIndex : Option MVal
deriving DecidableEq

/-- JavaScript truthiness of the `error` field: absent and the empty
string are falsy. -/
def errTruthy : Option String → Bool
  | none => false
  | some s => s != emptyS

structure Dist where
  count : Nat
  t85 : List ℚ
  t95 : List ℚ
  visIndex : List ℚ
deriving DecidableEq

structure Stats where
  t85 : Option ℚ
  t95 : Option ℚ
  visIndex : Option ℚ
deriving DecidableEq

structure AggResult where
  dist : Dist
  median : Stats
  p10 : Stats
  p90 : Stats
  errors : List String
deriving DecidableEq

/-- The successful trials, `arr.filter(x => !x.error)`. -/
def okOf (arr : List RunResult) : List RunResult :=
  arr.filter (fun x => !errTruthy x.error)

/-- The aggregation body for one (engine, test) group (main loop,
lines 566-588 of the source). -/
def aggregateGroup (arr : List RunResult) : AggResult :=
  let errs := (arr.filter (fun x => errTruthy x.error)).map (fun x => x.error.getD emptyS)
  let ok := okOf arr
  let t85s := qList ((ok.map (fun x => toNumber x.t85)).filter isFinV)
  let t95s := qList ((ok.map (fun x => toNumber x.t95)).filter isFinV)
  let vis := qList ((ok.map (fun x => toNumber x.visIndex)).filter notNaNV)
  { dist := ⟨arr.length, t85s, t95s, vis⟩
    median := ⟨medianQ t85s, medianQ t95s, medianQ vis⟩
    p10 := ⟨percentileQ t85s 10, percentileQ t95s 10, percentileQ vis 10⟩
    p90 := ⟨percentileQ t85s 90, percentileQ t95s 90, percentileQ vis 90⟩
    errors := errs }

/-! Concrete aggregation inputs used by the theorems below. -/

/-- A successful trial whose `t85` is null (as produced for an empty
timeline) and whose other metrics are finite. -/
def rs3run : RunResult := ⟨none, some MVal.vnull, some (MVal.vnum 7), some (MVal.vnum (1 / 2))⟩

def rs3 : List RunResult := [rs3run]

/-- A failed trial whose error string is empty (JavaScript-falsy). -/
def rsErun : RunResult := ⟨some emptyS, none, none, none⟩

def rsE : List RunResult := [rsErun]

def failS : String := "boom"

/-- A failed trial with an ordinary non-empty error string. -/
def rsFrun : RunResult := ⟨some failS, none, none, none⟩

def rsF : List RunResult := [rsFrun]

/-- A mixed group: one successful trial and one failed trial. -/
def rsMix : List RunResult :=
  [⟨none, some (MVal.vnum 5), some (MVal.vnum 6), some (MVal.vnum (1 / 4))⟩, rsFrun]

/-! ## Helper lemmas (shared). -/

lemma colorDelta_self (p : Pixel) : colorDelta p p = 0 := by
  simp [colorDelta]

lemma pixelDiffers_self (p : Pixel) : pixelDiffers p p = false := by
  simp only [pixelDiffers, colorDelta_self, abs_zero, decide_eq_false_iff_not, not_lt]
  norm_num [maxDelta]

lemma zip_self_countP (l : List Pixel) :
    (l.zip l).countP (fun pq => pixelDiffers pq.1 pq.2) = 0 := by
  induction l with
  | nil => rfl
  | cons a t ih => simp [List.countP_cons, ih, pixelDiffers_self]

/-! ## Theorems about the claims. -/

/-- Claim C1 (code bug): the server's escape check is a bare string-prefix
test on the normalized path.  With root `/a/b`, the request
`/../bc/secret.png` resolves to `/a/bc/secret.png` — outside the root —
yet `"/a/bc/secret.png".startsWith("/a/b")` holds, so the server does not
answer 403: it serves the file's bytes (and only then appends a trace).
The claim says every request resolving outside the root gets Forbidden
and no file bytes. -/
theorem server_serves_file_outside_root :
    resolvedPathOf c1root c1url = some c1secret.data ∧
    escapesRoot c1root.data c1secret.data = true ∧
    handleRequest c1root c1fs false c1url = (Outcome.served [9, 9, 9], true) := by
  decide

/-- Claim C2, counterexample: a request answered 403 Forbidden appends no
ServerTrace record at all (the source only pushes the record on stream
end, stream error, and in the catch block), contradicting "exactly one
record per handled request, whether it completes or fails with
Forbidden, NotFound, or InternalError". -/
theorem forbidden_request_appends_no_trace :
    handleRequest c1root c2fs false c2url = (Outcome.forbidden, false) := by
  decide

/-- Claim C2, amended: a trace record is appended exactly for requests
that stream a file (to completion or to a stream error) or whose handler
throws (InternalError); 204, Forbidden, NotFound, and HEAD responses
append none. -/
theorem trace_appended_iff_streamed_or_threw (root : String) (fsys : String → FsNode)
    (isHead : Bool) (url : String) :
    (handleRequest root fsys isHead url).2 = pushesTrace (handleRequest root fsys isHead url).1 := by
  unfold handleRequest
  dsimp only
  repeat' split <;> try rfl

/-- Claim C6: a one-frame timeline yields the single sample
`{t = 0, completeness = 1}` and `t85 = t95 = visIndex = 0`, for any frame
whatsoever (no comparison is performed). -/
theorem single_frame_instant_convergence (f : Frame) :
    computeVisualProgress [f] = Except.ok ⟨[⟨0, 1⟩], some 0, some 0, 0⟩ := rfl

/-- Claim C7: similarity of an image with itself is exactly 1, and for
equal-dimension images the returned score lies in [0, 1]. -/
theorem similarity_self_one_and_bounded :
    (∀ x : Image, similarity x x = Except.ok 1) ∧
    (∀ x y : Image, x.width = y.width → x.height = y.height →
      ∃ q : ℚ, similarity x y = Except.ok q ∧ 0 ≤ q ∧ q ≤ 1) := by
  constructor
  · intro x
    simp [similarity, pixelmatchCount, zip_self_countP]
  · intro x y hw hh
    have hpos : (0 : ℚ) < (x.width : ℚ) * (x.height : ℚ) := by
      have h := Nat.mul_pos x.wpos x.hpos
      exact_mod_cast h
    have hcle : (pixelmatchCount x.data y.data : ℚ) ≤ (x.width : ℚ) * (x.height : ℚ) := by
      have h1 : pixelmatchCount x.data y.data ≤ x.width * x.height := by
        calc pixelmatchCount x.data y.data ≤ (x.data.zip y.data).length :=
              List.countP_le_length _
          _ = min x.data.length y.data.length := List.length_zip _ _
          _ = x.width * x.height := by rw [x.hdata, y.hdata, hw, hh, min_self]
      exact_mod_cast h1
    have hq0 : (0 : ℚ) ≤ (pixelmatchCount x.data y.data : ℚ) / ((x.width : ℚ) * (x.height : ℚ)) :=
      div_nonneg (by positivity) hpos.le
    have hq1 : (pixelmatchCount x.data y.data : ℚ) / ((x.width : ℚ) * (x.height : ℚ)) ≤ 1 :=
      (div_le_one hpos).mpr hcle
    have hcond : ¬(x.width ≠ y.width ∨ x.height ≠ y.height) := by
      simp [hw, hh]
    refine ⟨1 - (pixelmatchCount x.data y.data : ℚ) / ((x.width : ℚ) * (x.height : ℚ)),
      ?_, by linarith, by linarith⟩
    unfold similarity
    rw [if_neg hcond]

/-- Witness for C7 at concrete images: a 1×1 white image compared with
itself, and a half-different 2×1 pair. -/
theorem similarity_self_one_and_bounded_witness :
    similarity img1W img1W = Except.ok 1 ∧
    (∃ q : ℚ, similarity img2HW img2WW = Except.ok q ∧ 0 ≤ q ∧ q ≤ 1) :=
  ⟨similarity_self_one_and_bounded.1 img1W,
   similarity_self_one_and_bounded.2 img2HW img2WW rfl rfl⟩

/-- Claim C8: similarity fails, with the dimension-mismatch error and no
score, exactly when the images differ in width or height; otherwise a
score is returned. -/
theorem similarity_dimension_mismatch_iff (x y : Image) :
    ((x.width ≠ y.width ∨ x.height ≠ y.height) →
      similarity x y = Except.error dimMismatchMsg) ∧
    ((x.width = y.width ∧ x.height = y.height) → ∃ q : ℚ, similarity x y = Except.ok q) := by
  constructor
  · intro h
    simp [similarity, h]
  · rintro ⟨hw, hh⟩
    have hcond : ¬(x.width ≠ y.width ∨ x.height ≠ y.height) := by
      simp [hw, hh]
    refine ⟨1 - (pixelmatchCount x.data y.data : ℚ) / ((x.width : ℚ) * (x.height : ℚ)), ?_⟩
    unfold similarity
    rw [if_neg hcond]

/-- Witness for C8: a 1×1 and a 2×1 image mismatch (widths 1 ≠ 2); two
2×1 images compare successfully. -/
theorem similarity_dimension_mismatch_iff_witness :
    similarity img1W img2WW = Except.error dimMismatchMsg ∧
    (∃ q : ℚ, similarity img2HW img2WW = Except.ok q) :=
  ⟨(similarity_dimension_mismatch_iff img1W img2WW).1 (Or.inl (by decide)),
   (similarity_dimension_mismatch_iff img2HW img2WW).2 ⟨rfl, rfl⟩⟩

lemma notNaNV_eq_isFinV : notNaNV = isFinV := by
  funext v
  cases v <;> rfl

lemma filterMap_finPart_filter (l : List NumV) :
    (l.filter isFinV).filterMap finPart = l.filterMap finPart := by
  induction l with
  | nil => rfl
  | cons v t ih =>
    cases v with
    | fin q => simp [List.filter_cons, isFinV, List.filterMap_cons, finPart, ih]
    | nan => simp [List.filter_cons, isFinV, List.filterMap_cons, finPart, ih]

lemma qList_filter_map (g : RunResult → Option MVal) (l : List RunResult) :
    qList ((l.map (fun x => toNumber (g x))).filter isFinV) =
      l.filterMap (fun r => finPart (toNumber (g r))) := by
  rw [qList, filterMap_finPart_filter, List.filterMap_map]
  rfl

lemma length_insertQ (x : ℚ) (l : List ℚ) : (insertQ x l).length = l.length + 1 := by
  induction l with
  | nil => rfl
  | cons y t ih => by_cases h : x ≤ y <;> simp [insertQ, h, ih]

lemma length_sortQ (l : List ℚ) : (sortQ l).length = l.length := by
  induction l with
  | nil => rfl
  | cons x t ih => simp [sortQ, length_insertQ, ih]

/-- Claim C3, counterexample: a successful trial whose `t85` is null
contributes the element 0 to the t85 array (JavaScript `Number(null)` is
`0`, which passes `Number.isFinite`), contradicting "a successful trial
whose t85 is null contributes no element to that metric's array". -/
theorem null_t85_contributes_element :
    rs3run.error = none ∧ rs3run.t85 = some MVal.vnull ∧
    (aggregateGroup rs3).dist.t85 = [0] ∧ (aggregateGroup rs3).dist.t85 ≠ [] := by
  decide

/-- Claim C3, amended: each metric array holds the `Number(...)` coercion
of each successful trial's value whenever that coercion is kept by the
filter — `null` coerces to 0 and is included; values coercing to NaN
(NaN itself, or an absent field) are dropped.  (`t85`/`t95` filter with
`Number.isFinite` and `visIndex` with not-NaN; on the values the analyzer
produces — null, finite, NaN — the two filters agree.)  In particular a
successful trial with a null metric contributes 0. -/
theorem metric_arrays_null_coerced (rs : List RunResult) :
    (aggregateGroup rs).dist.t85 = (okOf rs).filterMap (fun r => finPart (toNumber r.t85)) ∧
    (aggregateGroup rs).dist.t95 = (okOf rs).filterMap (fun r => finPart (toNumber r.t95)) ∧
    (aggregateGroup rs).dist.visIndex =
      (okOf rs).filterMap (fun r => finPart (toNumber r.visIndex)) ∧
    (∀ r ∈ rs, errTruthy r.error = false → r.t85 = some MVal.vnull →
      (0 : ℚ) ∈ (aggregateGroup rs).dist.t85) := by
  refine ⟨qList_filter_map (fun r => r.t85) (okOf rs),
    qList_filter_map (fun r => r.t95) (okOf rs), ?_, ?_⟩
  · show qList (((okOf rs).map (fun x => toNumber x.visIndex)).filter notNaNV) = _
    rw [notNaNV_eq_isFinV]
    exact qList_filter_map (fun r => r.visIndex) (okOf rs)
  · intro r hr herr ht
    have h1 : (aggregateGroup rs).dist.t85 =
        (okOf rs).filterMap (fun r => finPart (toNumber r.t85)) :=
      qList_filter_map (fun r => r.t85) (okOf rs)
    rw [h1]
    refine List.mem_filterMap.mpr ⟨r, ?_, by rw [ht]; rfl⟩
    exact List.mem_filter.mpr ⟨hr, by rw [herr]; rfl⟩

/-- Witness for C3 at the concrete group `rs3`: its single successful
trial has a null `t85`, and 0 is in the aggregated t85 array. -/
theorem metric_arrays_null_coerced_witness :
    (0 : ℚ) ∈ (aggregateGroup rs3).dist.t85 :=
  (metric_arrays_null_coerced rs3).2.2.2 rs3run (by decide) (by decide) (by decide)

/-- Claim C4, counterexample: a failed trial whose error string is empty
is dropped by the JavaScript-truthiness filter `arr.filter(x => x.error)`,
so its error string does not appear in the errors list, contradicting
"every failed trial's error string appears in the errors list". -/
theorem empty_error_string_not_retained :
    rsErun.error = some emptyS ∧ (aggregateGroup rsE).dist.count = 1 ∧
    (aggregateGroup rsE).errors = [] ∧ ¬ emptyS ∈ (aggregateGroup rsE).errors := by
  decide

/-- Claim C4, amended: `dist.count` equals the total number of trials in
the group; the errors list is exactly the error strings of the trials
with a truthy (non-empty) error, each of which therefore appears in it;
and the numeric metric arrays are unchanged when the failed trials are
removed (failed trials contribute no element).  A trial with an empty
error string is treated as successful — and, having no metric fields, it
still contributes nothing numeric. -/
theorem aggregate_count_and_errors (rs : List RunResult) :
    (aggregateGroup rs).dist.count = rs.length ∧
    (aggregateGroup rs).errors =
      (rs.filter (fun x => errTruthy x.error)).map (fun x => x.error.getD emptyS) ∧
    (aggregateGroup rs).dist.t85 = (aggregateGroup (okOf rs)).dist.t85 ∧
    (aggregateGroup rs).dist.t95 = (aggregateGroup (okOf rs)).dist.t95 ∧
    (aggregateGroup rs).dist.visIndex = (aggregateGroup (okOf rs)).dist.visIndex ∧
    (∀ r ∈ rs, errTruthy r.error = true →
      r.error.getD emptyS ∈ (aggregateGroup rs).errors) := by
  have hidem : okOf (okOf rs) = okOf rs := by
    simp [okOf, List.filter_filter]
  refine ⟨rfl, rfl, ?_, ?_, ?_, ?_⟩
  · exact congrArg
      (fun l => qList ((l.map (fun x => toNumber x.t85)).filter isFinV)) hidem.symm
  · exact congrArg
      (fun l => qList ((l.map (fun x => toNumber x.t95)).filter isFinV)) hidem.symm
  · exact congrArg
      (fun l => qList ((l.map (fun x => toNumber x.visIndex)).filter notNaNV)) hidem.symm
  · intro r hr htr
    exact List.mem_map_of_mem _ (List.mem_filter.mpr ⟨hr, htr⟩)

/-- Witness for C4 at the concrete mixed group `rsMix` (one success, one
failure with error string "boom"). -/
theorem aggregate_count_and_errors_witness :
    rsFrun.error.getD emptyS ∈ (aggregateGroup rsMix).errors ∧
    (aggregateGroup rsMix).dist.count = rsMix.length :=
  ⟨(aggregate_count_and_errors rsMix).2.2.2.2.2 rsFrun (by decide) (by decide),
   (aggregate_count_and_errors rsMix).1⟩

/-- Claim C9: median is the middle element of the ascending sort for odd
lengths and the mean of the two middle elements for even lengths;
percentile linearly interpolates between the two sorted neighbours of the
fractional index `(p/100)*(length-1)`; with the claim's concrete
instances `median([1,2,3,4]) = 2.5` and `percentile([1,2,3,4,5], 90) =
4.6`. -/
theorem median_percentile_formulas :
    medianQ [1, 2, 3, 4] = some (5 / 2) ∧
    percentileQ [1, 2, 3, 4, 5] 90 = some (23 / 5) ∧
    (∀ arr : List ℚ, arr ≠ [] →
      ((sortQ arr).length % 2 = 1 →
        medianQ arr = some ((sortQ arr).getD (((sortQ arr).length - 1) / 2) 0)) ∧
      ((sortQ arr).length % 2 = 0 →
        medianQ arr = some (((sortQ arr).getD ((sortQ arr).length / 2 - 1) 0 +
          (sortQ arr).getD ((sortQ arr).length / 2) 0) / 2))) ∧
    (∀ (arr : List ℚ) (p : ℚ), arr ≠ [] →
      (⌊p / 100 * (((sortQ arr).length : ℚ) - 1)⌋ = ⌈p / 100 * (((sortQ arr).length : ℚ) - 1)⌉ →
        percentileQ arr p =
          some ((sortQ arr).getD (⌊p / 100 * (((sortQ arr).length : ℚ) - 1)⌋).toNat 0)) ∧
      (⌊p / 100 * (((sortQ arr).length : ℚ) - 1)⌋ ≠ ⌈p / 100 * (((sortQ arr).length : ℚ) - 1)⌉ →
        percentileQ arr p = some (
          (sortQ arr).getD (⌊p / 100 * (((sortQ arr).length : ℚ) - 1)⌋).toNat 0 *
            (1 - (p / 100 * (((sortQ arr).length : ℚ) - 1) -
              ((⌊p / 100 * (((sortQ arr).length : ℚ) - 1)⌋ : ℤ) : ℚ))) +
          (sortQ arr).getD (⌈p / 100 * (((sortQ arr).length : ℚ) - 1)⌉).toNat 0 *
            (p / 100 * (((sortQ arr).length : ℚ) - 1) -
              ((⌊p / 100 * (((sortQ arr).length : ℚ) - 1)⌋ : ℤ) : ℚ))))) := by
  refine ⟨by decide, by decide, ?_, ?_⟩
  · intro arr hne
    have hm : ¬ (sortQ arr).length = 0 := by
      rw [length_sortQ]
      simpa using fun h => hne (List.length_eq_zero.mp h)
    constructor
    · intro hodd
      unfold medianQ
      rw [if_neg hm, if_pos hodd]
    · intro heven
      have hodd : ¬ (sortQ arr).length % 2 = 1 := by omega
      unfold medianQ
      rw [if_neg hm, if_neg hodd]
  · intro arr p hne
    have hm : ¬ arr.length = 0 := fun h => hne (List.length_eq_zero.mp h)
    constructor
    · intro heq
      unfold percentileQ
      rw [if_neg hm, if_pos heq]
    · intro hneq
      unfold percentileQ
      rw [if_neg hm, if_neg hneq]

/-- Witness for C9: the even-length and interpolation branches applied to
the claim's own concrete arrays. -/
theorem median_percentile_formulas_witness :
    medianQ [1, 2, 3, 4] = some ((2 + 3) / 2) ∧
    percentileQ [1, 2, 3, 4, 5] 90 = some (4 * (1 - 3 / 5) + 5 * (3 / 5)) := by
  constructor
  · have h := (median_percentile_formulas.2.2.1 [1, 2, 3, 4] (by decide)).2 (by decide)
    rw [h]
    decide
  · have h := (median_percentile_formulas.2.2.2 [1, 2, 3, 4, 5] 90 (by decide)).2 (by decide)
    rw [h]
    decide

/-- Claim C10: median and percentile of an empty array are null, and an
aggregated group whose metric array is empty (for example because every
trial failed) has null median, p10 and p90 for that metric. -/
theorem empty_metric_arrays_null_stats :
    medianQ ([] : List ℚ) = none ∧
    (∀ p : ℚ, percentileQ [] p = none) ∧
    (∀ rs : List RunResult,
      ((aggregateGroup rs).dist.t85 = [] →
        (aggregateGroup rs).median.t85 = none ∧ (aggregateGroup rs).p10.t85 = none ∧
          (aggregateGroup rs).p90.t85 = none) ∧
      ((aggregateGroup rs).dist.t95 = [] →
        (aggregateGroup rs).median.t95 = none ∧ (aggregateGroup rs).p10.t95 = none ∧
          (aggregateGroup rs).p90.t95 = none) ∧
      ((aggregateGroup rs).dist.visIndex = [] →
        (aggregateGroup rs).median.visIndex = none ∧
          (aggregateGroup rs).p10.visIndex = none ∧
          (aggregateGroup rs).p90.visIndex = none)) ∧
    (∀ rs : List RunResult, (∀ r ∈ rs, errTruthy r.error = true) →
      (aggregateGroup rs).dist.t85 = [] ∧ (aggregateGroup rs).dist.t95 = [] ∧
      (aggregateGroup rs).dist.visIndex = [] ∧
      (aggregateGroup rs).median.t85 = none ∧ (aggregateGroup rs).median.t95 = none ∧
      (aggregateGroup rs).median.visIndex = none) := by
  refine ⟨rfl, fun p => rfl, ?_, ?_⟩
  · intro rs
    refine ⟨fun h => ?_, fun h => ?_, fun h => ?_⟩
    · exact ⟨by show medianQ (aggregateGroup rs).dist.t85 = none; rw [h]; rfl,
        by show percentileQ (aggregateGroup rs).dist.t85 10 = none; rw [h]; rfl,
        by show percentileQ (aggregateGroup rs).dist.t85 90 = none; rw [h]; rfl⟩
    · exact ⟨by show medianQ (aggregateGroup rs).dist.t95 = none; rw [h]; rfl,
        by show percentileQ (aggregateGroup rs).dist.t95 10 = none; rw [h]; rfl,
        by show percentileQ (aggregateGroup rs).dist.t95 90 = none; rw [h]; rfl⟩
    · exact ⟨by show medianQ (aggregateGroup rs).dist.visIndex = none; rw [h]; rfl,
        by show percentileQ (aggregateGroup rs).dist.visIndex 10 = none; rw [h]; rfl,
        by show percentileQ (aggregateGroup rs).dist.visIndex 90 = none; rw [h]; rfl⟩
  · intro rs hall
    have hok : okOf rs = [] := by
      rw [okOf, List.filter_eq_nil_iff]
      intro a ha
      simp [hall a ha]
    have h85 : (aggregateGroup rs).dist.t85 = [] := by
      show qList (((okOf rs).map (fun x => toNumber x.t85)).filter isFinV) = []
      rw [hok]
      rfl
    have h95 : (aggregateGroup rs).dist.t95 = [] := by
      show qList (((okOf rs).map (fun x => toNumber x.t95)).filter isFinV) = []
      rw [hok]
      rfl
    have hvi : (aggregateGroup rs).dist.visIndex = [] := by
      show qList (((okOf rs).map (fun x => toNumber x.visIndex)).filter notNaNV) = []
      rw [hok]
      rfl
    refine ⟨h85, h95, hvi, ?_, ?_, ?_⟩
    · show medianQ (aggregateGroup rs).dist.t85 = none
      rw [h85]
      rfl
    · show medianQ (aggregateGroup rs).dist.t95 = none
      rw [h95]
      rfl
    · show medianQ (aggregateGroup rs).dist.visIndex = none
      rw [hvi]
      rfl

/-- Witness for C10 at the all-failed group `rsF`. -/
theorem empty_metric_arrays_null_stats_witness :
    percentileQ [] 10 = none ∧
    (aggregateGroup rsF).dist.t85 = [] ∧ (aggregateGroup rsF).median.t85 = none :=
  ⟨empty_metric_arrays_null_stats.2.1 10,
   (empty_metric_arrays_null_stats.2.2.2 rsF (by decide)).1,
   (empty_metric_arrays_null_stats.2.2.2 rsF (by decide)).2.2.2.1⟩

lemma except_bind_ok {α β : Type} {x : Except String α} {g : α → Except String β} {b : β}
    (h : x >>= g = Except.ok b) : ∃ a, x = Except.ok a ∧ g a = Except.ok b := by
  cases x with
  | error e => exact absurd h (by simp [Bind.bind, Except.bind])
  | ok a => exact ⟨a, rfl, by simpa [Bind.bind, Except.bind] using h⟩

lemma except_pure_ok {β : Type} {a b : β} (h : (pure a : Except String β) = Except.ok b) :
    a = b :=
  Except.ok.inj h

/-- Claim C5, counterexample: the analyzer applies `toFixed(4)` to the
incompleteness integral, so the returned visIndex is the rounded value
`0.3333`, not the exact ratio `1/3` that the sample completeness values
and times give — contradicting "visIndex equal to the sum ... divided by
(tEnd − t0)" read as exact equality. -/
theorem visIndex_rounded_not_exact :
    computeVisualProgress tlC5 = Except.ok rC5 ∧
    areaSum rC5.samples / (lastTime rC5.samples - headTime rC5.samples) = 1 / 3 ∧
    rC5.visIndex = 3333 / 10000 ∧ (3333 / 10000 : ℚ) ≠ 1 / 3 := by
  refine ⟨rfl, by decide, rfl, by decide⟩

/-- Claim C5, amended: for a timeline of at least two samples the
analyzer returns `visIndex = round4(Σ (1 - completeness[i-1])·(t[i] -
t[i-1]) / (tEnd - t0))` — the claim's integral rounded to four decimal
digits — when `tEnd > t0`, and `t85 = t95 = visIndex = 0` when
`tEnd ≤ t0`; the claim's two-frame half-similarity example still returns
exactly 0.5 (rounding fixes it). -/
theorem visIndex_rounding_formula :
    (∀ (tl : List Frame) (r : VisResult), 2 ≤ tl.length →
      computeVisualProgress tl = Except.ok r →
      ((lastTime r.samples ≤ headTime r.samples →
          r.t85 = some 0 ∧ r.t95 = some 0 ∧ r.visIndex = 0) ∧
       (headTime r.samples < lastTime r.samples →
          r.visIndex =
            round4 (areaSum r.samples / (lastTime r.samples - headTime r.samples))))) ∧
    computeVisualProgress tl05 =
      Except.ok ⟨[⟨0, 1 / 2⟩, ⟨100, 1⟩], some 100, some 100, 1 / 2⟩ := by
  constructor
  · intro tl r hlen hok
    cases tl with
    | nil => simp at hlen
    | cons f0 t =>
      cases t with
      | nil => simp at hlen
      | cons f1 rest =>
        simp only [computeVisualProgress] at hok
        obtain ⟨samples, hmm, hk⟩ := except_bind_ok hok
        by_cases hc : lastTime samples ≤ headTime samples
        · rw [if_pos hc] at hk
          have := except_pure_ok hk
          subst this
          exact ⟨fun _ => ⟨rfl, rfl, rfl⟩, fun hlt => absurd hlt (not_lt.mpr hc)⟩
        · rw [if_neg hc] at hk
          have := except_pure_ok hk
          subst this
          exact ⟨fun hle => absurd hle hc, fun _ => rfl⟩
  · rfl

/-- Witness for C5 at the concrete timeline `tlC5`: its result has
strictly increasing capture times and a visIndex equal to the rounded
normalized area. -/
theorem visIndex_rounding_formula_witness :
    headTime rC5.samples < lastTime rC5.samples ∧
    rC5.visIndex = round4 (areaSum rC5.samples / (lastTime rC5.samples - headTime rC5.samples)) := by
  refine ⟨by decide, ?_⟩
  exact (visIndex_rounding_formula.1 tlC5 rC5 (by decide) rfl).2 (by decide)

/-- Witness for C2 at a concrete request (the traversal request served
through the prefix gap, which does append a trace). -/
theorem trace_appended_iff_streamed_or_threw_witness :
    (handleRequest c1root c1fs false c1url).2 =
      pushesTrace (handleRequest c1root c1fs false c1url).1 :=
  trace_appended_iff_streamed_or_threw c1root c1fs false c1url

/-- Witness for C6 at a concrete one-frame timeline. -/
theorem single_frame_instant_convergence_witness :
    computeVisualProgress [⟨5, img1W⟩] = Except.ok ⟨[⟨0, 1⟩], some 0, some 0, 0⟩ :=
  single_frame_instant_convergence ⟨5, img1W⟩

end Bench
